import Mathlib

/-!
Verification of the CadNav session relay (server/src/index.js).

The relay is embedded shallowly: JavaScript numbers are modelled by the
inductive JNum (a finite rational, NaN, or a signed infinity), arbitrary
JSON payload fields by JVal, and each message handler becomes a pure
function from the session state and the decoded payload to the updated
state together with the list of emitted frames.  Wall-clock reads
(Date.now) and random draws (resume tokens) are passed as explicit
arguments; the opaque compression codec and the SHA-1 hash are passed as
function parameters, since the relay only ever compares their outputs.
-/

namespace CadNav

/-- A JavaScript number: a finite value (modelled as a rational), NaN, or
one of the two infinities.  This captures exactly the distinctions the
relay code makes (typeof checks and Number.isFinite). -/
inductive JNum where
  | finite (q : ℚ)
  | nan
  | posInf
  | negInf
deriving DecidableEq

/-- Number.isFinite. -/
def JNum.isFinite : JNum → Bool
  | .finite _ => true
  | _ => false

/-- A JSON payload field as the relay discriminates it: absent/undefined
(or null), a number, a string, or any other value (object, boolean, ...).
Only the typeof tests the source performs are distinguished. -/
inductive JVal where
  | undef
  | num (n : JNum)
  | str (s : String)
  | other
deriving DecidableEq

/-- typeof v === "number". -/
def JVal.isNum : JVal → Bool
  | .num _ => true
  | _ => false

/-- The four fields the location sanitizer reads from a raw payload
object (each may hold any JSON value). -/
structure RawLocation where
  lat : JVal
  lng : JVal
  accuracy : JVal
  timestamp : JVal
deriving DecidableEq

/-- A sanitized location fix as stored on a peer: lat/lng are whatever
numbers arrived (the source only checks typeof), accuracy is kept only
when it was a number, timestamp always holds a number. -/
structure Location where
  lat : JNum
  lng : JNum
  accuracy : Option JNum
  timestamp : JNum
deriving DecidableEq

/-- normalizeLocation from server/src/index.js.  The argument is
none when the raw value is not an object (the !raw || typeof raw !==
"object" guard); now is the server clock (Date.now()) used as the
timestamp default. -/
def normalizeLocation (now : ℤ) (raw : Option RawLocation) : Option Location :=
  match raw with
  | none => none
  | some r =>
    match r.lat, r.lng with
    | .num lat, .num lng =>
      some { lat := lat
             lng := lng
             accuracy := match r.accuracy with
               | .num a => some a
               | _ => none
             timestamp := match r.timestamp with
               | .num t => t
               | _ => JNum.finite (now : ℚ) }
    | _, _ => none

/-- The state of the transport bound to a peer slot: no socket at all
(the JS field is null, as after a host detach), a socket whose readyState
is not OPEN, or an open socket.  Truthiness of the field distinguishes
nosock from the other two; send only delivers on an open socket. -/
inductive Sock where
  | nosock
  | closedS
  | openS
deriving DecidableEq

/-- A sanitized route checkpoint (output of sanitizeRouteItem):
the position keeps only lat/lng of the normalized location. -/
structure RouteItem where
  id : String
  name : Option String
  posLat : JNum
  posLng : JNum
deriving DecidableEq

/-- A sanitized route (output of sanitizeClientRoutes). -/
structure Route where
  id : String
  color : Option String
  name : Option String
  items : List RouteItem
deriving DecidableEq

/-- A peer record (host or client).  Hosts use resumeToken and never the
routes fields; clients use the routes fields and never resumeToken — the
JS objects are duck-typed, so one structure carries both. -/
structure Peer where
  participantId : String
  color : String
  label : String
  socket : Sock
  location : Option Location
  lastLocationAt : ℤ
  routes : Option (List Route)
  lastRoutesAt : ℤ
  routesHash : Option String
  resumeToken : Option String
deriving DecidableEq

/-- A session record.  clients models the insertion-ordered Map from
participantId to client peer as an association list of peers. -/
structure Session where
  id : String
  host : Option Peer
  clients : List Peer
  stateVersion : ℕ
  stateBlob : Option String
  stateHash : Option String
  lastActivity : ℤ
  colorCursor : ℕ
  locationIntervalMs : ℤ
  hostResumeToken : String
  hostDetachedAt : Option ℤ
deriving DecidableEq

/-- Destination of an emitted frame: the transport that sent the inbound
frame (used for error replies and session:ready), or a peer addressed
through the directed send helpers. -/
inductive Dest where
  | toSender
  | toPeer (participantId : String)
deriving DecidableEq

/-- The cached-state packet carried by session:ready and session:state
(the compressed:true field is constant and omitted). -/
structure StatePacket where
  version : ℕ
  data : String
  hash : Option String
  size : Option ℕ
deriving DecidableEq

/-- The peer snapshot built by buildPeerSnapshot. -/
structure PeerSnapshot where
  id : String
  color : String
  label : String
  role : String
  location : Option Location
  routes : Option (List Route)
deriving DecidableEq

/-- The payload of session:ready. -/
structure ReadyPayload where
  sessionId : String
  role : String
  participantId : String
  peers : List PeerSnapshot
  state : Option StatePacket
  intervalMs : ℤ
  resumeToken : Option String
deriving DecidableEq

/-- An outbound frame, one constructor per message type the embedded
handlers emit. -/
inductive OutFrame where
  | sessionError (message : String)
  | sessionReady (p : ReadyPayload)
  | sessionLocation (participantId : String) (loc : Location) (role : String)
  | sessionState (p : StatePacket)
  | sessionInterval (intervalMs : ℤ)
  | sessionPeerRoutes (participantId : String) (routes : List Route)
  | sessionHostStatus (online : Bool) (reason : Option String) (timestamp : ℤ)
  | sessionEnded (reason : String)
deriving DecidableEq

/-- Whether a frame is a session:state (used to state version monotonicity). -/
def OutFrame.stateVersionOf : OutFrame → Option ℕ
  | .sessionState p => some p.version
  | _ => none

/-- buildPeerSnapshot from server/src/index.js. -/
def buildPeerSnapshot (peer : Peer) (role : String) : PeerSnapshot :=
  { id := peer.participantId
    color := peer.color
    label := peer.label
    role := role
    location := peer.location
    routes := peer.routes }

/-- sendToHost: delivers one frame to the host when the host slot has an
open socket (send checks readyState; the helper checks session.host?.socket). -/
def sendToHost (s : Session) (f : OutFrame) : List (Dest × OutFrame) :=
  match s.host with
  | some h => if h.socket = .openS then [(Dest.toPeer h.participantId, f)] else []
  | none => []

/-- sendToClients: delivers one frame to every client with an open socket,
in map order. -/
def sendToClients (s : Session) (f : OutFrame) : List (Dest × OutFrame) :=
  s.clients.filterMap fun c =>
    if c.socket = .openS then some (Dest.toPeer c.participantId, f) else none

/-- broadcast: host first (when open), then every open client. -/
def broadcast (s : Session) (f : OutFrame) : List (Dest × OutFrame) :=
  sendToHost s f ++ sendToClients s f

/-- Looks up the peer the meta of a bound socket refers to: the host record
for role host, otherwise the client with the participantId of the sender. -/
def findPeer (s : Session) (role pid : String) : Option Peer :=
  if role = "host" then s.host
  else s.clients.find? (fun c => c.participantId = pid)

/-- Writes back a mutated peer into the session (the JS code mutates the
shared object in place). -/
def setPeer (s : Session) (role : String) (p : Peer) : Session :=
  if role = "host" then { s with host := some p }
  else { s with clients := s.clients.map fun c =>
          if c.participantId = p.participantId then p else c }

/-- handleLocation from server/src/index.js, for a socket already bound
to the session (meta present; the not-joined error path takes no part in
the claims about bound peers and is modelled by handleLocationUnbound
being out of scope here).  raw is payload?.location ?? payload, resolved
to the object handed to normalizeLocation (none when it is not an
object).  Returns the updated session and the emitted frames. -/
def handleLocation (s : Session) (role pid : String) (now : ℤ)
    (raw : Option RawLocation) : Session × List (Dest × OutFrame) :=
  match findPeer s role pid with
  | none => (s, [])
  | some peer =>
    if now - peer.lastLocationAt < s.locationIntervalMs then
      (s, [])
    else
      match normalizeLocation now raw with
      | none => (s, [])
      | some loc =>
        let peer' := { peer with location := some loc, lastLocationAt := now }
        let s' := { setPeer s role peer' with lastActivity := now }
        if role = "client" then
          (s', sendToHost s' (.sessionLocation peer.participantId loc role))
        else
          (s', [])

/-- The acceptance condition of handleLocation: the sender resolves to a
peer, the throttle gate passes, and the payload validates. -/
def locAccepted (s : Session) (role pid : String) (now : ℤ)
    (raw : Option RawLocation) : Bool :=
  match findPeer s role pid with
  | none => false
  | some peer =>
    decide (s.locationIntervalMs ≤ now - peer.lastLocationAt)
      && (normalizeLocation now raw).isSome

/-- handleHostState from server/src/index.js, for a socket already bound
(role is the meta role).  blob is payload?.data when it is a string,
none otherwise; decodes models the opaque lz-string decompression
succeeding with a non-empty result that parses as JSON; hashFn models
the base64 SHA-1 digest of the blob. -/
def handleHostState (s : Session) (role : String) (now : ℤ)
    (blob : Option String) (decodes : String → Bool)
    (hashFn : String → String) : Session × List (Dest × OutFrame) :=
  if role ≠ "host" then
    (s, [(Dest.toSender, .sessionError "Only the host can publish state.")])
  else
    match blob with
    | none => (s, [(Dest.toSender, .sessionError "Missing compressed payload.")])
    | some b =>
      if b.length = 0 then
        (s, [(Dest.toSender, .sessionError "Missing compressed payload.")])
      else if ¬ decodes b then
        (s, [(Dest.toSender, .sessionError "State payload could not be decompressed.")])
      else
        let h := hashFn b
        if s.stateHash = some h then
          (s, [])
        else
          let s' := { s with stateBlob := some b
                             stateHash := some h
                             stateVersion := s.stateVersion + 1
                             lastActivity := now }
          (s', sendToHost s' (.sessionState
            { version := s'.stateVersion
              data := b
              hash := some h
              size := some b.utf8ByteSize }))

/-- Runs a sequence of host:state submissions (each a blob option and a
clock reading), threading the session state and concatenating the frames
emitted, in order. -/
def runHostStates (decodes : String → Bool) (hashFn : String → String)
    (role : String) :
    Session → List (Option String × ℤ) → Session × List (Dest × OutFrame)
  | s, [] => (s, [])
  | s, (b, t) :: rest =>
    let r := handleHostState s role t b decodes hashFn
    let r' := runHostStates decodes hashFn role r.1 rest
    (r'.1, r.2 ++ r'.2)

/-- JavaScript String.prototype.trim, written over the character list
so that concrete instances evaluate by kernel reduction. -/
def jsTrim (s : String) : String :=
  ⟨((s.data.dropWhile Char.isWhitespace).reverse.dropWhile
      Char.isWhitespace).reverse⟩

/-- JavaScript String.prototype.toUpperCase (ASCII range, which covers
the session-code alphabet). -/
def jsToUpper (s : String) : String := ⟨s.data.map Char.toUpper⟩

/-- JavaScript String.prototype.slice(0, n), written over the character
list so that it evaluates. -/
def jsSlice (s : String) (n : ℕ) : String := ⟨s.data.take n⟩

/-- handleHostResume from server/src/index.js.  lookup models the
sessions registry (sessions.get); sidRaw and tokRaw are the payload
fields when they are strings (none otherwise); nextToken is the random
resume token drawn by generateResumeToken; now is Date.now().  Returns
the updated session (none when no session was found or touched) and the
emitted frames: the host-status notifications to the clients, then
session:ready to the resuming socket. -/
def handleHostResume (lookup : String → Option Session)
    (sidRaw tokRaw : Option String) (nextToken : String) (now : ℤ) :
    Option Session × List (Dest × OutFrame) :=
  let sid := jsToUpper (jsTrim (sidRaw.getD ""))
  let tok := jsTrim (tokRaw.getD "")
  if sid = "" ∨ tok = "" then
    (none, [(Dest.toSender, .sessionError "Missing resume credentials.")])
  else
    match lookup sid with
    | none => (none, [(Dest.toSender, .sessionError "Session not found or expired.")])
    | some s =>
      match s.host with
      | none => (some s, [(Dest.toSender, .sessionError "Resume token invalid.")])
      | some h =>
        if s.hostResumeToken ≠ tok then
          (some s, [(Dest.toSender, .sessionError "Resume token invalid.")])
        else if h.socket ≠ .nosock then
          (some s, [(Dest.toSender, .sessionError "Host already connected.")])
        else
          let h' := { h with socket := .openS, resumeToken := some nextToken }
          let s' := { s with host := some h'
                             hostResumeToken := nextToken
                             hostDetachedAt := none
                             lastActivity := now }
          let statusFrames := sendToClients s'
            (.sessionHostStatus true (some "host-resumed") now)
          let statePacket : Option StatePacket :=
            match s'.stateBlob with
            | some b =>
              if b ≠ "" ∧ s'.stateVersion ≠ 0 then
                some { version := s'.stateVersion
                       data := b
                       hash := s'.stateHash
                       size := none }
              else none
            | none => none
          let peers := s'.clients.map fun c => buildPeerSnapshot c "client"
          (some s', statusFrames ++
            [(Dest.toSender, .sessionReady
              { sessionId := s'.id
                role := "host"
                participantId := h'.participantId
                peers := peers
                state := statePacket
                intervalMs := s'.locationIntervalMs
                resumeToken := some nextToken })])

/-- MIN_UPDATE_INTERVAL_MS. -/
def MIN_UPDATE_INTERVAL_MS : ℤ := 5000

/-- MAX_UPDATE_INTERVAL_MS. -/
def MAX_UPDATE_INTERVAL_MS : ℤ := 120000

/-- Math.round on a finite JavaScript number: the integer nearest the
argument with ties toward positive infinity, that is ⌊q + 1/2⌋,
computed by floor division on the reduced fraction so that it evaluates
(see jsRound_eq_floor). -/
def jsRound (q : ℚ) : ℤ := Int.fdiv (2 * q.num + q.den) (2 * q.den)

/-- jsRound is indeed ⌊q + 1/2⌋. -/
lemma jsRound_eq_floor (q : ℚ) : jsRound q = ⌊q + (1:ℚ)/2⌋ := by
  have hden : ((q.den : ℚ)) ≠ 0 := by
    exact_mod_cast q.den_nz
  have hq : q * (q.den : ℚ) = (q.num : ℚ) := by
    nth_rewrite 1 [← Rat.num_div_den q]
    exact div_mul_cancel₀ _ hden
  have h : q + (1:ℚ)/2 =
      ((2 * q.num + (q.den : ℤ) : ℤ) : ℚ) / (((2 * q.den : ℕ) : ℕ) : ℚ) := by
    push_cast
    rw [eq_div_iff (by positivity)]
    ring_nf
    rw [hq]
    ring
  rw [jsRound, h, Rat.floor_intCast_div_natCast,
    Int.fdiv_eq_ediv _ (by positivity)]
  norm_cast

/-- clampIntervalMs from server/src/index.js. -/
def clampIntervalMs (value : ℚ) : ℤ :=
  min MAX_UPDATE_INTERVAL_MS (max MIN_UPDATE_INTERVAL_MS (jsRound value))

/-- The Number(x) coercion applied to a payload field modelled as a
number when present: Number(undefined) is NaN. -/
def jsNumber : Option JNum → JNum
  | some n => n
  | none => JNum.nan

/-- Multiplication of a JavaScript number by 1000 (seconds to ms). -/
def JNum.mul1000 : JNum → JNum
  | .finite q => .finite (q * 1000)
  | .nan => .nan
  | .posInf => .posInf
  | .negInf => .negInf

/-- The requested <= 0 test of handleHostInterval (false on NaN). -/
def JNum.le0 : JNum → Bool
  | .finite q => decide (q ≤ 0)
  | .nan => false
  | .posInf => false
  | .negInf => true

/-- handleHostInterval from server/src/index.js, for a socket already
bound (role is the meta role).  The intervalMs and seconds payload
fields are modelled as numbers when present, none otherwise.  Emits
session:interval to the host and every client when the clamped value
differs from the current one. -/
def handleHostInterval (s : Session) (role : String)
    (intervalMsField secondsField : Option JNum) :
    Session × List (Dest × OutFrame) :=
  if role ≠ "host" then
    (s, [(Dest.toSender, .sessionError "Only the host can update cadence.")])
  else
    let requested₀ := jsNumber intervalMsField
    let requested :=
      if ¬ requested₀.isFinite ∧ (jsNumber secondsField).isFinite then
        (jsNumber secondsField).mul1000
      else requested₀
    if ¬ requested.isFinite ∨ requested.le0 then
      (s, [(Dest.toSender, .sessionError "Invalid interval value.")])
    else
      match requested with
      | .finite q =>
        let nextInterval := clampIntervalMs q
        if s.locationIntervalMs = nextInterval then
          (s, [])
        else
          let s' := { s with locationIntervalMs := nextInterval }
          (s', sendToHost s' (.sessionInterval nextInterval) ++
               sendToClients s' (.sessionInterval nextInterval))
      | _ => (s, [])

/-- MAX_ROUTES_PER_CLIENT with its default configuration (8). -/
def MAX_ROUTES_PER_CLIENT : ℕ := 8

/-- MAX_ROUTE_POINTS with its default configuration (80). -/
def MAX_ROUTE_POINTS : ℕ := 80

/-- The position field of a raw route item: nullish (fall back to the
item itself), a non-object value, or an object carrying location fields. -/
inductive PosField where
  | nullish
  | nonObject
  | obj (r : RawLocation)
deriving DecidableEq

/-- A raw route item as sanitizeRouteItem reads it: its position field,
the location fields of the item object itself (used when position is
nullish), and the id/label/name fields. -/
structure RawItem where
  position : PosField
  selfLoc : RawLocation
  id : JVal
  labelField : JVal
  nameField : JVal
deriving DecidableEq

/-- A raw route as sanitizeClientRoutes reads it: items is none when the
items field is not an array; each array element is none when it is not
an object (null or a primitive). -/
structure RawRoute where
  id : JVal
  color : JVal
  name : JVal
  items : Option (List (Option RawItem))
deriving DecidableEq

/-- sanitizeRouteItem from server/src/index.js.  The item argument is
none when the raw element is not an object; now is threaded to
normalizeLocation (only lat/lng of its result are used). -/
def sanitizeRouteItem (now : ℤ) (item : Option RawItem) (index : ℕ) :
    Option RouteItem :=
  match item with
  | none => none
  | some it =>
    let base : Option RawLocation :=
      match it.position with
      | .nullish => some it.selfLoc
      | .nonObject => none
      | .obj r => some r
    match normalizeLocation now base with
    | none => none
    | some normalized =>
      let id := match it.id with
        | .str s => jsSlice s 40
        | _ => "PT-" ++ toString index
      let nameSource : JVal := match it.labelField with
        | .str s => .str s
        | _ => it.nameField
      let name : Option String := match nameSource with
        | .str s => if (jsTrim s).length > 0 then some (jsSlice s 48) else none
        | _ => none
      some { id := id, name := name
             posLat := normalized.lat, posLng := normalized.lng }

/-- The loop body of sanitizeClientRoutes: walks the raw array carrying
the accumulated safe list (in order), stopping once it holds
MAX_ROUTES_PER_CLIENT routes. -/
def sanitizeRoutesGo (now : ℤ) :
    List (Option RawRoute) → List Route → List Route
  | [], safe => safe
  | r :: rest, safe =>
    if safe.length ≥ MAX_ROUTES_PER_CLIENT then safe
    else
      match r with
      | none => sanitizeRoutesGo now rest safe
      | some route =>
        let items : List RouteItem :=
          match route.items with
          | some arr =>
            (((arr.take MAX_ROUTE_POINTS).mapIdx
                fun i it => sanitizeRouteItem now it i).filterMap id)
          | none => []
        if items.length = 0 then sanitizeRoutesGo now rest safe
        else
          let rid := match route.id with
            | .str s => jsSlice s 40
            | _ => "R-" ++ toString (safe.length + 1)
          let rcolor : Option String := match route.color with
            | .str s => some (jsSlice s 32)
            | _ => none
          let rname : Option String := match route.name with
            | .str s => some (jsSlice s 64)
            | _ => none
          sanitizeRoutesGo now rest
            (safe ++ [{ id := rid, color := rcolor, name := rname, items := items }])

/-- sanitizeClientRoutes from server/src/index.js.  rawRoutes is none
when the payload field is not an array. -/
def sanitizeClientRoutes (now : ℤ)
    (rawRoutes : Option (List (Option RawRoute))) : List Route :=
  match rawRoutes with
  | none => []
  | some routes => sanitizeRoutesGo now routes []

/-- handleClientRoutes from server/src/index.js, for a socket already
bound (role is the meta role).  raw is payload?.routes ?? payload viewed
as an array when it is one; hashFn models hashRoutes (the base64 SHA-1
of the JSON serialization of the sanitized list — equal lists hash
equal). -/
def handleClientRoutes (s : Session) (role pid : String) (now : ℤ)
    (raw : Option (List (Option RawRoute)))
    (hashFn : List Route → String) : Session × List (Dest × OutFrame) :=
  if role ≠ "client" then
    (s, [(Dest.toSender, .sessionError "Only field devices can upload routes.")])
  else
    match findPeer s role pid with
    | none => (s, [])
    | some peer =>
      let sanitized := sanitizeClientRoutes now raw
      let hash : Option String :=
        if sanitized.length > 0 then some (hashFn sanitized) else none
      let deduped : Bool := match hash with
        | some h => h ≠ "" && peer.routesHash = some h
        | none => false
      if deduped then (s, [])
      else
        let peer' := { peer with
          routes := if sanitized.length > 0 then some sanitized else none
          routesHash := hash
          lastRoutesAt := now }
        let s' := { setPeer s role peer' with lastActivity := now }
        (s', sendToHost s'
          (.sessionPeerRoutes peer.participantId (peer'.routes.getD [])))

/-- An observable step of session termination, in the order the code
performs them: removal of the session code from the registry, an
outbound frame, a transport close with a protocol close code and reason,
and the final clearing of the clients map. -/
inductive Event where
  | evDelete (sessionId : String)
  | evFrame (dest : Dest) (f : OutFrame)
  | evClose (participantId : String) (code : ℕ) (reason : String)
  | evClearClients
deriving DecidableEq

/-- terminateSession from server/src/index.js, as the ordered trace of
its observable steps: it deletes the session from the registry FIRST,
then broadcasts session:ended (host first, then clients, open sockets
only), then closes every client transport with code 1012, then the host
transport with code 1001 when a socket is attached, then clears the
clients map. -/
def terminateSession (s : Session) (reason : String) : List Event :=
  [Event.evDelete s.id] ++
  (broadcast s (.sessionEnded reason)).map (fun df => Event.evFrame df.1 df.2) ++
  s.clients.map (fun c => Event.evClose c.participantId 1012 reason) ++
  (match s.host with
   | some h => if h.socket ≠ .nosock then [Event.evClose h.participantId 1001 reason] else []
   | none => []) ++
  [Event.evClearClients]

/-- The socket meta attached once a transport is bound to a session. -/
structure Meta where
  role : String
  sessionId : String
  participantId : String
deriving DecidableEq

/-- ensureSession from server/src/index.js: resolves the socket meta to
the live session it names, if any. -/
def ensureSession (lookup : String → Option Session) (meta : Option Meta) :
    Option Session :=
  match meta with
  | none => none
  | some m => lookup m.sessionId

/-- handleHostShutdown from server/src/index.js.  When the socket is not
bound to a live session it returns WITHOUT emitting anything (no
session:error); when bound as non-host it answers with one
session:error; when bound as host it runs terminateSession with reason
host-ended. -/
def handleHostShutdown (lookup : String → Option Session)
    (meta : Option Meta) : List Event :=
  match ensureSession lookup meta with
  | none => []
  | some s =>
    if (meta.map Meta.role).getD "" ≠ "host" then
      [Event.evFrame Dest.toSender (.sessionError "Only the host can end a session.")]
    else
      terminateSession s "host-ended"

/-- A per-second traffic bucket. -/
structure Bucket where
  bucketIn : ℚ
  bucketOut : ℚ
deriving DecidableEq

/-- The traffic meter state; buckets is the insertion-ordered Map from
second keys to buckets, as an association list. -/
structure TrafficStats where
  bytesIn : ℚ
  bytesOut : ℚ
  buckets : List (ℤ × Bucket)
deriving DecidableEq

/-- Map.get followed by in-place mutation or Map.set: adds upd to the
bucket at key k, appending a fresh zero bucket first when the key is
absent. -/
def bumpBucket (l : List (ℤ × Bucket)) (k : ℤ) (upd : Bucket → Bucket) :
    List (ℤ × Bucket) :=
  if l.any (fun p => p.1 = k) then
    l.map fun p => if p.1 = k then (p.1, upd p.2) else p
  else
    l ++ [(k, upd { bucketIn := 0, bucketOut := 0 })]

/-- recordTraffic from server/src/index.js, parameterized by the
configured window MAX_TRAFFIC_WINDOW_SECONDS (maxWindowS, default 900,
floored at 60 by the configuration code) and the clock nowMs.  bytes is
a JavaScript number; non-finite or non-positive values are ignored. -/
def recordTraffic (maxWindowS : ℤ) (t : TrafficStats) (direction : String)
    (bytes : JNum) (nowMs : ℤ) : TrafficStats :=
  match bytes with
  | .finite q =>
    if q ≤ 0 then t
    else
      let t₁ :=
        if direction = "in" then { t with bytesIn := t.bytesIn + q }
        else if direction = "out" then { t with bytesOut := t.bytesOut + q }
        else t
      let bucketKey := Int.fdiv nowMs 1000
      let upd : Bucket → Bucket := fun b =>
        if direction = "in" then { b with bucketIn := b.bucketIn + q }
        else if direction = "out" then { b with bucketOut := b.bucketOut + q }
        else b
      let buckets₁ := bumpBucket t₁.buckets bucketKey upd
      let cutoff := bucketKey - maxWindowS
      { t₁ with buckets := buckets₁.filter fun p => ¬ p.1 < cutoff }
  | _ => t

/-- Folds a list of record calls (direction, bytes, clock) over the
meter state. -/
def runTraffic (maxWindowS : ℤ) :
    TrafficStats → List (String × JNum × ℤ) → TrafficStats
  | t, [] => t
  | t, (d, b, n) :: rest =>
    runTraffic maxWindowS (recordTraffic maxWindowS t d b n) rest

/-! Concrete fixtures used to instantiate the theorems. -/

/-- A bound host peer. -/
def hostPeerEx : Peer :=
  { participantId := "HQ-AAA", color := "#38bdf8", label := "HQ"
    socket := .openS, location := none, lastLocationAt := 0
    routes := none, lastRoutesAt := 0, routesHash := none
    resumeToken := some "tok0" }

/-- A bound client peer. -/
def clientPeerEx : Peer :=
  { participantId := "CL-AAA-BB", color := "#ef4444", label := "AAA"
    socket := .openS, location := none, lastLocationAt := 0
    routes := none, lastRoutesAt := 0, routesHash := none
    resumeToken := none }

/-- A live session with a bound host and one bound client. -/
def sessionEx : Session :=
  { id := "ABC234", host := some hostPeerEx, clients := [clientPeerEx]
    stateVersion := 0, stateBlob := none, stateHash := none
    lastActivity := 0, colorCursor := 1, locationIntervalMs := 10000
    hostResumeToken := "tok0", hostDetachedAt := none }

/-- A raw location whose coordinates are both numbers. -/
def rawLocEx : RawLocation :=
  { lat := .num (.finite 1), lng := .num (.finite 2)
    accuracy := .undef, timestamp := .undef }

/-- A raw location whose lat is NaN (typeof number, not finite). -/
def rawLocNaN : RawLocation :=
  { lat := .num .nan, lng := .num (.finite 0)
    accuracy := .undef, timestamp := .undef }

/-- A raw location whose lat is a string (fails the typeof check). -/
def rawLocBad : RawLocation :=
  { lat := .str "52.1", lng := .num (.finite 0)
    accuracy := .undef, timestamp := .undef }

/-! Shared helper lemmas. -/

/-- Replacing the found peer in a list (as setPeer does) makes find?
return the replacement. -/
lemma find?_map_replace (l : List Peer) (pid : String) (peer p' : Peer)
    (hf : l.find? (fun c => c.participantId = pid) = some peer)
    (hp : p'.participantId = pid) :
    (l.map fun c => if c.participantId = p'.participantId then p' else c).find?
      (fun c => c.participantId = pid) = some p' := by
  rw [hp]
  induction l with
  | nil => simp at hf
  | cons hd tl ih =>
    by_cases hc : hd.participantId = pid
    · simp [List.find?_cons, hc, hp]
    · rw [List.find?_cons_of_neg] at hf
      · simpa [List.find?_cons, hc] using ih hf
      · simpa using hc

/-- find? already implies the found peer matches the predicate. -/
lemma find?_participantId (l : List Peer) (pid : String) (peer : Peer)
    (hf : l.find? (fun c => c.participantId = pid) = some peer) :
    peer.participantId = pid := by
  have := List.find?_some hf
  simpa using this

/-- findPeer after setPeer returns the written peer, provided the peer
was found before and the replacement keeps the participantId. -/
lemma findPeer_setPeer (s : Session) (role pid : String) (peer p' : Peer)
    (hf : findPeer s role pid = some peer)
    (hp : p'.participantId = peer.participantId) :
    findPeer (setPeer s role p') role pid = some p' := by
  by_cases hrole : role = "host"
  · simp only [findPeer, setPeer, hrole, if_true] at *
  · simp only [findPeer, setPeer, hrole, if_false] at *
    have hpid : peer.participantId = pid := find?_participantId _ _ _ hf
    exact find?_map_replace _ _ _ _ hf (hp.trans hpid)

/-- findPeer ignores the lastActivity field. -/
lemma findPeer_lastActivity (s : Session) (role pid : String) (t : ℤ) :
    findPeer { s with lastActivity := t } role pid = findPeer s role pid := by
  simp [findPeer]

/-- setPeer touches only the peer slots. -/
lemma setPeer_locationIntervalMs (s : Session) (role : String) (p : Peer) :
    (setPeer s role p).locationIntervalMs = s.locationIntervalMs := by
  by_cases h : role = "host" <;> simp [setPeer, h]

/-- What an accepted participant:location call does: the found peer gets
the normalized fix and the acceptance time, the session records the
activity, and nothing else of the peer record changes. -/
lemma handleLocation_accept (s : Session) (role pid : String) (now : ℤ)
    (raw : Option RawLocation)
    (hacc : locAccepted s role pid now raw = true) :
    ∃ peer loc,
      findPeer s role pid = some peer ∧
      normalizeLocation now raw = some loc ∧
      s.locationIntervalMs ≤ now - peer.lastLocationAt ∧
      findPeer (handleLocation s role pid now raw).1 role pid =
        some { peer with location := some loc, lastLocationAt := now } ∧
      (handleLocation s role pid now raw).1.locationIntervalMs =
        s.locationIntervalMs := by
  cases hfp : findPeer s role pid with
  | none => simp [locAccepted, hfp] at hacc
  | some peer =>
    simp only [locAccepted, hfp, Bool.and_eq_true, decide_eq_true_eq,
      Option.isSome_iff_exists] at hacc
    obtain ⟨hgate, loc, hloc⟩ := hacc
    refine ⟨peer, loc, rfl, hloc, hgate, ?_, ?_⟩ <;>
    · have hnotlt : ¬ (now - peer.lastLocationAt < s.locationIntervalMs) :=
        not_lt.mpr hgate
      have h1 : (handleLocation s role pid now raw).1 =
          { setPeer s role { peer with location := some loc, lastLocationAt := now }
            with lastActivity := now } := by
        by_cases hr : role = "client"
        · subst hr; simp [handleLocation, hfp, hnotlt, hloc]
        · simp [handleLocation, hfp, hnotlt, hloc, hr]
      rw [h1]
      first
      | · rw [findPeer_lastActivity]
          exact findPeer_setPeer s role pid peer _ hfp rfl
      | · simpa using setPeer_locationIntervalMs s role _

/-- C1: a participant:location frame arriving while
now - lastLocationAt is below the current intervalMs of the session is
silently discarded (no frame, no state change), and any two
consecutively accepted fixes from the same peer are separated by at
least the interval in force at the second acceptance. -/
theorem c1_location_throttle :
    (∀ (s : Session) (role pid : String) (now : ℤ) (raw : Option RawLocation)
       (peer : Peer),
        findPeer s role pid = some peer →
        now - peer.lastLocationAt < s.locationIntervalMs →
        handleLocation s role pid now raw = (s, [])) ∧
    (∀ (s : Session) (role pid : String) (t₁ t₂ : ℤ)
       (raw₁ raw₂ : Option RawLocation),
        locAccepted s role pid t₁ raw₁ = true →
        locAccepted (handleLocation s role pid t₁ raw₁).1 role pid t₂ raw₂ = true →
        (handleLocation s role pid t₁ raw₁).1.locationIntervalMs ≤ t₂ - t₁) := by
  constructor
  · intro s role pid now raw peer hfp hlt
    simp [handleLocation, hfp, hlt]
  · intro s role pid t₁ t₂ raw₁ raw₂ hacc₁ hacc₂
    obtain ⟨peer, loc, _, _, _, hfind₂, _⟩ :=
      handleLocation_accept s role pid t₁ raw₁ hacc₁
    simp only [locAccepted, hfind₂, Bool.and_eq_true, decide_eq_true_eq] at hacc₂
    exact hacc₂.1

/-- Witness for C1 at a concrete session: a fix 5 ms after the previous
one is dropped, and a pair of accepted fixes 10000 ms apart respects the
10000 ms interval. -/
theorem c1_location_throttle_witness :
    handleLocation sessionEx "client" "CL-AAA-BB" 5 none = (sessionEx, []) ∧
    (handleLocation sessionEx "client" "CL-AAA-BB" 10000
        (some rawLocEx)).1.locationIntervalMs ≤ 20000 - 10000 :=
  ⟨c1_location_throttle.1 sessionEx "client" "CL-AAA-BB" 5 none clientPeerEx
      (by decide) (by decide),
   c1_location_throttle.2 sessionEx "client" "CL-AAA-BB" 10000 20000
      (some rawLocEx) (some rawLocEx) (by decide) (by decide)⟩

/-- C10: when the throttle gate passes but the payload fails location
validation (lat or lng not of number type, or the payload is not an
object), the frame is silently dropped: no frame is emitted and the
session (peer location, lastLocationAt, lastActivity) is unchanged. -/
theorem c10_invalid_location_dropped :
    (∀ (now : ℤ) (r : RawLocation),
        (r.lat.isNum = false ∨ r.lng.isNum = false) →
        normalizeLocation now (some r) = none) ∧
    (∀ (s : Session) (role pid : String) (now : ℤ) (raw : Option RawLocation)
       (peer : Peer),
        findPeer s role pid = some peer →
        s.locationIntervalMs ≤ now - peer.lastLocationAt →
        normalizeLocation now raw = none →
        handleLocation s role pid now raw = (s, [])) := by
  constructor
  · intro now r hbad
    cases hl : r.lat <;> cases hg : r.lng <;>
      simp_all [normalizeLocation, JVal.isNum]
  · intro s role pid now raw peer hfp hge hnone
    have hnotlt : ¬ (now - peer.lastLocationAt < s.locationIntervalMs) :=
      not_lt.mpr hge
    simp [handleLocation, hfp, hnotlt, hnone]

/-- Witness for C10: a NaN-lat payload passing the gate at a concrete
session is dropped without any effect. -/
theorem c10_invalid_location_dropped_witness :
    normalizeLocation 10000 (some rawLocBad) = none ∧
    handleLocation sessionEx "client" "CL-AAA-BB" 10000 none = (sessionEx, []) :=
  ⟨c10_invalid_location_dropped.1 10000 rawLocBad (by decide),
   c10_invalid_location_dropped.2 sessionEx "client" "CL-AAA-BB" 10000 none
      clientPeerEx (by decide) (by decide) (by decide)⟩

/-- C3 counterexample: the sanitizer does NOT reject non-finite
coordinates — a payload whose lat is NaN (typeof number) is accepted, so
the claim that only finite lat/lng pass is false at this input. -/
theorem c3_counterexample :
    ¬ (∀ (now : ℤ) (raw : Option RawLocation) (loc : Location),
          normalizeLocation now raw = some loc →
          loc.lat.isFinite = true ∧ loc.lng.isFinite = true) := by
  intro hclaim
  have h := hclaim 0 (some rawLocNaN)
      { lat := .nan, lng := .finite 0, accuracy := none
        timestamp := .finite ((0:ℤ) : ℚ) }
      (by decide)
  exact absurd h.1 (by decide)

/-- C3 (amended): a location payload is accepted by the sanitizer
exactly when lat and lng are of number type (NaN and the infinities
included — there is no finiteness check); accuracy is kept only when
numeric; timestamp is replaced by the server clock when absent or
non-numeric. -/
theorem c3_sanitizer :
    (∀ (now : ℤ) (r : RawLocation) (loc : Location),
        normalizeLocation now (some r) = some loc →
        r.lat.isNum = true ∧ r.lng.isNum = true) ∧
    (∀ (now : ℤ) (r : RawLocation) (lat lng : JNum),
        r.lat = .num lat → r.lng = .num lng →
        normalizeLocation now (some r) =
          some { lat := lat, lng := lng
                 accuracy := match r.accuracy with
                   | .num a => some a
                   | _ => none
                 timestamp := match r.timestamp with
                   | .num t => t
                   | _ => .finite (now : ℚ) }) ∧
    (∀ (now : ℤ), normalizeLocation now none = none) ∧
    (∀ (now : ℤ) (r : RawLocation) (loc : Location),
        normalizeLocation now (some r) = some loc →
        r.timestamp.isNum = false → loc.timestamp = .finite (now : ℚ)) ∧
    (∀ (now : ℤ) (r : RawLocation) (loc : Location) (a : JNum),
        normalizeLocation now (some r) = some loc →
        (loc.accuracy = some a ↔ r.accuracy = .num a)) := by
  refine ⟨?_, ?_, ?_, ?_, ?_⟩
  · intro now r loc h
    cases hl : r.lat <;> cases hg : r.lng <;>
      simp_all [normalizeLocation, JVal.isNum]
  · intro now r lat lng hl hg
    simp [normalizeLocation, hl, hg]
  · intro now; rfl
  · intro now r loc h ht
    cases hl : r.lat <;> cases hg : r.lng <;>
      simp_all [normalizeLocation, JVal.isNum] <;>
    · cases hts : r.timestamp <;> simp_all <;> rw [← h]
  · intro now r loc a h
    cases hl : r.lat <;> cases hg : r.lng <;>
      simp_all [normalizeLocation] <;>
    · cases hac : r.accuracy <;> simp_all <;> rw [← h] <;> simp

/-- Witness for C3 (amended) at a concrete payload: numeric lat/lng are
accepted verbatim, the absent accuracy is dropped and the absent
timestamp becomes the server clock. -/
theorem c3_sanitizer_witness :
    normalizeLocation 7 (some rawLocEx) =
      some { lat := .finite 1, lng := .finite 2, accuracy := none
             timestamp := .finite ((7:ℤ) : ℚ) } :=
  c3_sanitizer.2.1 7 rawLocEx (.finite 1) (.finite 2) (by decide) (by decide)

/-- The versions carried by the session:state frames of a frame list. -/
def stateVersions (frames : List (Dest × OutFrame)) : List ℕ :=
  frames.filterMap fun df => df.2.stateVersionOf

/-- stateVersions distributes over append. -/
lemma stateVersions_append (a b : List (Dest × OutFrame)) :
    stateVersions (a ++ b) = stateVersions a ++ stateVersions b := by
  simp [stateVersions]

/-- The accept branch of handleHostState: cache replaced, version
bumped, one session:state handed to sendToHost. -/
lemma handleHostState_accept (s : Session) (now : ℤ) (b : String)
    (dec : String → Bool) (hf : String → String)
    (hb : b.length ≠ 0) (hd : dec b = true) (hh : s.stateHash ≠ some (hf b)) :
    handleHostState s "host" now (some b) dec hf =
      ({ s with stateBlob := some b, stateHash := some (hf b)
                stateVersion := s.stateVersion + 1, lastActivity := now },
       sendToHost
         { s with stateBlob := some b, stateHash := some (hf b)
                  stateVersion := s.stateVersion + 1, lastActivity := now }
         (.sessionState { version := s.stateVersion + 1, data := b
                          hash := some (hf b), size := some b.utf8ByteSize })) := by
  simp [handleHostState, hb, hd, hh]

/-- Per-call facts about handleHostState: the version never decreases,
at most one session:state is emitted, and an emitted version is exactly
the incremented one. -/
lemma handleHostState_facts (s : Session) (role : String) (now : ℤ)
    (blob : Option String) (dec : String → Bool) (hf : String → String) :
    s.stateVersion ≤ (handleHostState s role now blob dec hf).1.stateVersion ∧
    (stateVersions (handleHostState s role now blob dec hf).2).length ≤ 1 ∧
    ∀ v ∈ stateVersions (handleHostState s role now blob dec hf).2,
      v = s.stateVersion + 1 ∧
      (handleHostState s role now blob dec hf).1.stateVersion =
        s.stateVersion + 1 := by
  by_cases hrole : role = "host"
  case neg =>
    simp [handleHostState, hrole, stateVersions, OutFrame.stateVersionOf]
  case pos =>
    subst hrole
    cases blob with
    | none => simp [handleHostState, stateVersions, OutFrame.stateVersionOf]
    | some b =>
      by_cases hb : b.length = 0
      · simp [handleHostState, hb, stateVersions, OutFrame.stateVersionOf]
      · by_cases hd : dec b
        · by_cases hh : s.stateHash = some (hf b)
          · simp [handleHostState, hb, hd, hh, stateVersions]
          · rw [handleHostState_accept s now b dec hf hb (by simpa using hd) hh]
            refine ⟨by simp, ?_, ?_⟩ <;>
              cases hhost : s.host with
              | none => simp [sendToHost, hhost, stateVersions]
              | some hp =>
                by_cases hs : hp.socket = Sock.openS <;>
                  simp [sendToHost, hhost, hs, stateVersions,
                    OutFrame.stateVersionOf]
        · simp [handleHostState, hb, hd, stateVersions, OutFrame.stateVersionOf]

/-- The state version never decreases across a run of host:state calls. -/
lemma runHostStates_mono (dec : String → Bool) (hf : String → String)
    (role : String) :
    ∀ (l : List (Option String × ℤ)) (s : Session),
      s.stateVersion ≤ (runHostStates dec hf role s l).1.stateVersion := by
  intro l
  induction l with
  | nil => intro s; simp [runHostStates]
  | cons p rest ih =>
    intro s
    obtain ⟨p1, p2⟩ := p
    have h1 := (handleHostState_facts s role p2 p1 dec hf).1
    exact le_trans h1 (ih _)

/-- Every version emitted during a run exceeds the starting version. -/
lemma runHostStates_versions_gt (dec : String → Bool) (hf : String → String)
    (role : String) :
    ∀ (l : List (Option String × ℤ)) (s : Session),
      ∀ v ∈ stateVersions (runHostStates dec hf role s l).2,
        s.stateVersion < v := by
  intro l
  induction l with
  | nil => intro s v hv; simp [runHostStates, stateVersions] at hv
  | cons p rest ih =>
    intro s v hv
    obtain ⟨p1, p2⟩ := p
    simp only [runHostStates, stateVersions_append] at hv
    rcases List.mem_append.mp hv with hv1 | hv2
    · obtain ⟨hveq, _⟩ :=
        (handleHostState_facts s role p2 p1 dec hf).2.2 v hv1
      omega
    · have hlt := ih (handleHostState s role p2 p1 dec hf).1 v hv2
      have hle := (handleHostState_facts s role p2 p1 dec hf).1
      omega

/-- The versions emitted during a run are strictly increasing. -/
lemma runHostStates_chain (dec : String → Bool) (hf : String → String)
    (role : String) :
    ∀ (l : List (Option String × ℤ)) (s : Session),
      List.Chain' (· < ·) (stateVersions (runHostStates dec hf role s l).2) := by
  intro l
  induction l with
  | nil => intro s; simp [runHostStates, stateVersions]
  | cons p rest ih =>
    intro s
    obtain ⟨p1, p2⟩ := p
    simp only [runHostStates, stateVersions_append]
    rw [List.chain'_append]
    obtain ⟨hmono, hlen, hvers⟩ := handleHostState_facts s role p2 p1 dec hf
    refine ⟨?_, ih _, ?_⟩
    · match hfr : stateVersions (handleHostState s role p2 p1 dec hf).2 with
      | [] => exact List.chain'_nil
      | [x] => exact List.chain'_singleton x
      | x :: y :: rest' => rw [hfr] at hlen; simp at hlen
    · intro x hx y hy
      have hxmem := List.mem_of_mem_getLast? hx
      have hymem := List.mem_of_mem_head? hy
      obtain ⟨hxeq, hres⟩ := hvers x hxmem
      have := runHostStates_versions_gt dec hf role rest
        (handleHostState s role p2 p1 dec hf).1 y hymem
      omega

/-- C2: for host:state with a valid (non-empty, decompressible-to-JSON)
blob, a hash equal to the cached one is a pure no-op; otherwise
stateVersion is incremented by exactly 1 and exactly one session:state
carrying that version goes to the host only; the same blob submitted
twice gives one increment and a no-op second call; and the versions of
successive session:state frames of a session strictly increase. -/
theorem c2_host_state :
    (∀ (s : Session) (now : ℤ) (b : String) (dec : String → Bool)
       (hf : String → String),
        b.length ≠ 0 → dec b = true → s.stateHash = some (hf b) →
        handleHostState s "host" now (some b) dec hf = (s, [])) ∧
    (∀ (s : Session) (now : ℤ) (b : String) (dec : String → Bool)
       (hf : String → String) (h : Peer),
        b.length ≠ 0 → dec b = true → s.stateHash ≠ some (hf b) →
        s.host = some h → h.socket = .openS →
        (handleHostState s "host" now (some b) dec hf).1.stateVersion =
            s.stateVersion + 1 ∧
        (handleHostState s "host" now (some b) dec hf).2 =
          [(Dest.toPeer h.participantId,
            OutFrame.sessionState
              { version := s.stateVersion + 1, data := b
                hash := some (hf b), size := some b.utf8ByteSize })]) ∧
    (∀ (s : Session) (now₁ now₂ : ℤ) (b : String) (dec : String → Bool)
       (hf : String → String),
        b.length ≠ 0 → dec b = true → s.stateHash ≠ some (hf b) →
        (handleHostState s "host" now₁ (some b) dec hf).1.stateVersion =
            s.stateVersion + 1 ∧
        handleHostState (handleHostState s "host" now₁ (some b) dec hf).1
            "host" now₂ (some b) dec hf =
          ((handleHostState s "host" now₁ (some b) dec hf).1, [])) ∧
    (∀ (dec : String → Bool) (hf : String → String) (role : String)
       (l : List (Option String × ℤ)) (s : Session),
        List.Chain' (· < ·) (stateVersions (runHostStates dec hf role s l).2)) := by
  refine ⟨?_, ?_, ?_, ?_⟩
  · intro s now b dec hf hb hd hh
    simp [handleHostState, hb, hd, hh]
  · intro s now b dec hf h hb hd hh hhost hsock
    rw [handleHostState_accept s now b dec hf hb hd hh]
    constructor
    · rfl
    · simp [sendToHost, hhost, hsock]
  · intro s now₁ now₂ b dec hf hb hd hh
    rw [handleHostState_accept s now₁ b dec hf hb hd hh]
    constructor
    · rfl
    · simp [handleHostState, hb, hd]
  · intro dec hf role l s
    exact runHostStates_chain dec hf role l s

/-- Witness for C2 at a concrete session: the first submission of blob
XY bumps the version to 1 and emits one session:state to the host; the
second submission of the same blob is a no-op. -/
theorem c2_host_state_witness :
    (handleHostState sessionEx "host" 5 (some "XY") (fun _ => true)
        (fun x => x)).2 =
      [(Dest.toPeer "HQ-AAA",
        OutFrame.sessionState
          { version := 1, data := "XY", hash := some "XY", size := some 2 })] ∧
    handleHostState
        (handleHostState sessionEx "host" 5 (some "XY") (fun _ => true)
          (fun x => x)).1 "host" 9 (some "XY") (fun _ => true) (fun x => x) =
      ((handleHostState sessionEx "host" 5 (some "XY") (fun _ => true)
        (fun x => x)).1, []) :=
  ⟨(c2_host_state.2.1 sessionEx 5 "XY" (fun _ => true) (fun x => x) hostPeerEx
      (by decide) (by decide) (by decide) rfl (by decide)).2,
   (c2_host_state.2.2.1 sessionEx 5 9 "XY" (fun _ => true) (fun x => x)
      (by decide) (by decide) (by decide)).2⟩

/-- Every frame produced by sendToClients goes to one of the current
clients. -/
lemma mem_sendToClients (s : Session) (f : OutFrame) (df : Dest × OutFrame)
    (hdf : df ∈ sendToClients s f) :
    ∃ c ∈ s.clients, df = (Dest.toPeer c.participantId, f) := by
  simp only [sendToClients, List.mem_filterMap] at hdf
  obtain ⟨c, hc, heq⟩ := hdf
  by_cases hs : c.socket = Sock.openS
  · rw [if_pos hs] at heq
    exact ⟨c, hc, (Option.some_inj.mp heq).symm⟩
  · rw [if_neg hs] at heq
    cases heq

/-- The detached host of the resume fixture (socket slot null). -/
def hostDetachedPeerEx : Peer := { hostPeerEx with socket := .nosock }

/-- A session whose host has detached, with a cached state snapshot. -/
def sessionDetachedEx : Session :=
  { sessionEx with host := some hostDetachedPeerEx
                   hostDetachedAt := some 50
                   stateBlob := some "BLOB"
                   stateHash := some "H1"
                   stateVersion := 3 }

/-- A registry holding only the detached session. -/
def lookupEx : String → Option Session :=
  fun x => if x = "ABC234" then some sessionDetachedEx else none

/-- C4: host:resume on an existing session with an unbound host slot and
the current resume token rebinds the transport as host, rotates the
resume token (the token in session:ready differs from the submitted
one), clears the detach timestamp, and emits session:ready carrying the
cached state snapshot unchanged together with the current peer set. -/
theorem c4_host_resume :
    ∀ (lookup : String → Option Session) (sid tok nextToken : String)
      (now : ℤ) (s : Session) (h : Peer),
      jsToUpper (jsTrim sid) = sid → sid ≠ "" → jsTrim tok = tok → tok ≠ "" →
      lookup sid = some s → s.host = some h → h.socket = .nosock →
      s.hostResumeToken = tok → nextToken ≠ tok →
      (handleHostResume lookup (some sid) (some tok) nextToken now).1 =
        some { s with
          host := some { h with socket := .openS, resumeToken := some nextToken }
          hostResumeToken := nextToken
          hostDetachedAt := none
          lastActivity := now } ∧
      (handleHostResume lookup (some sid) (some tok) nextToken now).2 =
        sendToClients
          { s with
            host := some { h with socket := .openS, resumeToken := some nextToken }
            hostResumeToken := nextToken
            hostDetachedAt := none
            lastActivity := now }
          (.sessionHostStatus true (some "host-resumed") now) ++
        [(Dest.toSender, .sessionReady
          { sessionId := s.id
            role := "host"
            participantId := h.participantId
            peers := s.clients.map fun c => buildPeerSnapshot c "client"
            state := match s.stateBlob with
              | some b =>
                if b ≠ "" ∧ s.stateVersion ≠ 0 then
                  some { version := s.stateVersion, data := b
                         hash := s.stateHash, size := none }
                else none
              | none => none
            intervalMs := s.locationIntervalMs
            resumeToken := some nextToken })] ∧
      some nextToken ≠ some tok ∧
      (∀ df ∈ sendToClients
          { s with
            host := some { h with socket := .openS, resumeToken := some nextToken }
            hostResumeToken := nextToken
            hostDetachedAt := none
            lastActivity := now }
          (.sessionHostStatus true (some "host-resumed") now),
        ∃ c ∈ s.clients,
          df = (Dest.toPeer c.participantId,
                .sessionHostStatus true (some "host-resumed") now)) := by
  intro lookup sid tok nextToken now s h hsid hne htok htne hlk hhost hsock
    htokeq hfresh
  have hres : handleHostResume lookup (some sid) (some tok) nextToken now =
      (some { s with
          host := some { h with socket := .openS, resumeToken := some nextToken }
          hostResumeToken := nextToken
          hostDetachedAt := none
          lastActivity := now },
       sendToClients
          { s with
            host := some { h with socket := .openS, resumeToken := some nextToken }
            hostResumeToken := nextToken
            hostDetachedAt := none
            lastActivity := now }
          (.sessionHostStatus true (some "host-resumed") now) ++
        [(Dest.toSender, .sessionReady
          { sessionId := s.id
            role := "host"
            participantId := h.participantId
            peers := s.clients.map fun c => buildPeerSnapshot c "client"
            state := match s.stateBlob with
              | some b =>
                if b ≠ "" ∧ s.stateVersion ≠ 0 then
                  some { version := s.stateVersion, data := b
                         hash := s.stateHash, size := none }
                else none
              | none => none
            intervalMs := s.locationIntervalMs
            resumeToken := some nextToken })]) := by
    simp [handleHostResume, hsid, htok, hne, htne, hlk, hhost, hsock, htokeq]
  refine ⟨by rw [hres], by rw [hres], by simp [hfresh], ?_⟩
  intro df hdf
  exact mem_sendToClients _ _ df hdf

/-- Witness for C4 at the detached fixture: the resume rebinds the host
with the rotated token, clears the detach timestamp, and the rotated
token differs from the submitted one. -/
theorem c4_host_resume_witness :
    (handleHostResume lookupEx (some "ABC234") (some "tok0") "tok1" 100).1 =
      some { sessionDetachedEx with
        host := some { hostDetachedPeerEx with
          socket := .openS, resumeToken := some "tok1" }
        hostResumeToken := "tok1"
        hostDetachedAt := none
        lastActivity := 100 } ∧
    some "tok1" ≠ some "tok0" :=
  ⟨(c4_host_resume lookupEx "ABC234" "tok0" "tok1" 100 sessionDetachedEx
      hostDetachedPeerEx (by decide) (by decide) (by decide) (by decide)
      (by decide) rfl (by decide) rfl (by decide)).1,
   (c4_host_resume lookupEx "ABC234" "tok0" "tok1" 100 sessionDetachedEx
      hostDetachedPeerEx (by decide) (by decide) (by decide) (by decide)
      (by decide) rfl (by decide) rfl (by decide)).2.2.1⟩

/-- sendToClients reaches every client whose socket is open. -/
lemma sendToClients_mem (s : Session) (f : OutFrame) (c : Peer)
    (hc : c ∈ s.clients) (hs : c.socket = .openS) :
    (Dest.toPeer c.participantId, f) ∈ sendToClients s f := by
  simp only [sendToClients, List.mem_filterMap]
  exact ⟨c, hc, by rw [if_pos hs]⟩

/-- C5: host:interval coerces the requested value (intervalMs, or
seconds*1000 when intervalMs is not finite) and clamps it to
[5000, 120000] — 4000 yields 5000, 125000 yields 120000, seconds=7
yields 7000; a non-finite request yields session:error; an unchanged
clamped value is a no-op; otherwise the interval is persisted and
session:interval reaches the host and every (open) client. -/
theorem c5_host_interval :
    (∀ (q : ℚ), MIN_UPDATE_INTERVAL_MS ≤ clampIntervalMs q ∧
        clampIntervalMs q ≤ MAX_UPDATE_INTERVAL_MS) ∧
    clampIntervalMs 4000 = 5000 ∧
    clampIntervalMs 125000 = 120000 ∧
    clampIntervalMs 7000 = 7000 ∧
    (∀ (s : Session) (f : Option JNum) (q p : ℚ),
        (jsNumber f).isFinite = false → q * 1000 = p →
        handleHostInterval s "host" f (some (.finite q)) =
          handleHostInterval s "host" (some (.finite p)) none) ∧
    (∀ (s : Session) (i sec : Option JNum),
        (jsNumber i).isFinite = false → (jsNumber sec).isFinite = false →
        handleHostInterval s "host" i sec =
          (s, [(Dest.toSender, .sessionError "Invalid interval value.")])) ∧
    (∀ (s : Session) (q : ℚ) (sec : Option JNum),
        0 < q → clampIntervalMs q = s.locationIntervalMs →
        handleHostInterval s "host" (some (.finite q)) sec = (s, [])) ∧
    (∀ (s : Session) (q : ℚ) (sec : Option JNum) (h : Peer),
        0 < q → clampIntervalMs q ≠ s.locationIntervalMs →
        s.host = some h → h.socket = .openS →
        (handleHostInterval s "host" (some (.finite q)) sec).1.locationIntervalMs
            = clampIntervalMs q ∧
        (Dest.toPeer h.participantId,
            OutFrame.sessionInterval (clampIntervalMs q)) ∈
          (handleHostInterval s "host" (some (.finite q)) sec).2 ∧
        (∀ c ∈ s.clients, c.socket = .openS →
          (Dest.toPeer c.participantId,
              OutFrame.sessionInterval (clampIntervalMs q)) ∈
            (handleHostInterval s "host" (some (.finite q)) sec).2)) := by
  refine ⟨?_, by decide, by decide, by decide, ?_, ?_, ?_, ?_⟩
  · intro q
    exact ⟨le_min (by norm_num [MIN_UPDATE_INTERVAL_MS, MAX_UPDATE_INTERVAL_MS])
        (le_max_left _ _), min_le_left _ _⟩
  · intro s f q p hf hp
    subst hp
    simp only [handleHostInterval, hf]
    simp [jsNumber, JNum.isFinite, JNum.mul1000]
  · intro s i sec hi hsec
    simp [handleHostInterval, hi, hsec]
  · intro s q sec h0 heq
    have hle : JNum.le0 (.finite q) = false := by
      simp [JNum.le0, not_le.mpr h0]
    simp [handleHostInterval, jsNumber, JNum.isFinite, hle, heq]
  · intro s q sec h h0 hne hhost hsock
    have hle : JNum.le0 (.finite q) = false := by
      simp [JNum.le0, not_le.mpr h0]
    have hres : handleHostInterval s "host" (some (.finite q)) sec =
        ({ s with locationIntervalMs := clampIntervalMs q },
         sendToHost { s with locationIntervalMs := clampIntervalMs q }
            (.sessionInterval (clampIntervalMs q)) ++
         sendToClients { s with locationIntervalMs := clampIntervalMs q }
            (.sessionInterval (clampIntervalMs q))) := by
      have hne2 : ¬ (s.locationIntervalMs = clampIntervalMs q) :=
        fun hh => hne hh.symm
      simp [handleHostInterval, jsNumber, JNum.isFinite, hle, hne2]
    refine ⟨by rw [hres], ?_, ?_⟩
    · rw [hres]
      apply List.mem_append_left
      simp [sendToHost, hhost, hsock]
    · intro c hc hcs
      rw [hres]
      apply List.mem_append_right
      exact sendToClients_mem _ _ c hc hcs

/-- Witness for C5 at a concrete session: requesting 4000 ms persists
5000 ms and notifies host and client; a seconds=7 request equals an
intervalMs=7000 request; an Infinity request errors. -/
theorem c5_host_interval_witness :
    ((handleHostInterval sessionEx "host" (some (.finite 4000))
        none).1.locationIntervalMs = clampIntervalMs 4000 ∧
     (Dest.toPeer "HQ-AAA", OutFrame.sessionInterval (clampIntervalMs 4000)) ∈
        (handleHostInterval sessionEx "host" (some (.finite 4000)) none).2 ∧
     (∀ c ∈ sessionEx.clients, c.socket = .openS →
        (Dest.toPeer c.participantId,
            OutFrame.sessionInterval (clampIntervalMs 4000)) ∈
          (handleHostInterval sessionEx "host" (some (.finite 4000)) none).2)) ∧
    handleHostInterval sessionEx "host" (some .nan) (some (.finite 7)) =
      handleHostInterval sessionEx "host" (some (.finite 7000)) none ∧
    handleHostInterval sessionEx "host" (some .posInf) none =
      (sessionEx, [(Dest.toSender, .sessionError "Invalid interval value.")]) :=
  ⟨c5_host_interval.2.2.2.2.2.2.2 sessionEx 4000 none hostPeerEx (by decide)
      (by decide) rfl (by decide),
   c5_host_interval.2.2.2.2.1 sessionEx (some .nan) 7 7000 (by decide)
      (by norm_num),
   c5_host_interval.2.2.2.2.2.1 sessionEx (some .posInf) none (by decide)
      (by decide)⟩

/-- A raw route item whose coordinates sit on the item itself. -/
def rawItemEx : RawItem :=
  { position := .nullish, selfLoc := rawLocEx, id := .str "P1"
    labelField := .undef, nameField := .undef }

/-- A raw route with one valid item. -/
def rawRouteEx : RawRoute :=
  { id := .str "R1", color := .undef, name := .undef
    items := some [some rawItemEx] }

/-- setPeer on a client leaves the host slot unchanged. -/
lemma setPeer_host (s : Session) (p : Peer) :
    (setPeer s "client" p).host = s.host := by
  simp [setPeer]

/-- C6 counterexample: an empty sanitized route list is NEVER
deduplicated — submitting a payload that sanitizes to [] twice relays
session:peer-routes to the host twice (the hash is null for an empty
list, so the hash-equality no-op path is unreachable), refuting the
claim for the empty list. -/
theorem c6_counterexample :
    (handleClientRoutes sessionEx "client" "CL-AAA-BB" 5 (some [])
        (fun _ => "H")).2 =
      [(Dest.toPeer "HQ-AAA", OutFrame.sessionPeerRoutes "CL-AAA-BB" [])] ∧
    (handleClientRoutes
        (handleClientRoutes sessionEx "client" "CL-AAA-BB" 5 (some [])
          (fun _ => "H")).1
        "client" "CL-AAA-BB" 6 (some []) (fun _ => "H")).2 =
      [(Dest.toPeer "HQ-AAA", OutFrame.sessionPeerRoutes "CL-AAA-BB" [])] ∧
    ((handleClientRoutes sessionEx "client" "CL-AAA-BB" 5 (some [])
        (fun _ => "H")).2 ++
     (handleClientRoutes
        (handleClientRoutes sessionEx "client" "CL-AAA-BB" 5 (some [])
          (fun _ => "H")).1
        "client" "CL-AAA-BB" 6 (some []) (fun _ => "H")).2).length = 2 := by
  refine ⟨by decide, by decide, by decide⟩

/-- C6 (amended): for two submissions whose payloads sanitize to the
same NON-EMPTY route list, the second is a no-op (the stored hash
matches), so exactly one session:peer-routes reaches the host; a
payload sanitizing to the empty list is never deduplicated and relays
an empty session:peer-routes on every submission. -/
theorem c6_client_routes :
    (∀ (s : Session) (pid : String) (now₁ now₂ : ℤ)
       (raw₁ raw₂ : Option (List (Option RawRoute)))
       (hashFn : List Route → String) (peer : Peer),
        findPeer s "client" pid = some peer →
        sanitizeClientRoutes now₁ raw₁ = sanitizeClientRoutes now₂ raw₂ →
        sanitizeClientRoutes now₁ raw₁ ≠ [] →
        hashFn (sanitizeClientRoutes now₁ raw₁) ≠ "" →
        handleClientRoutes
            (handleClientRoutes s "client" pid now₁ raw₁ hashFn).1
            "client" pid now₂ raw₂ hashFn =
          ((handleClientRoutes s "client" pid now₁ raw₁ hashFn).1, [])) ∧
    (∀ (s : Session) (pid : String) (now : ℤ)
       (raw : Option (List (Option RawRoute)))
       (hashFn : List Route → String) (peer h : Peer),
        findPeer s "client" pid = some peer →
        sanitizeClientRoutes now raw ≠ [] →
        hashFn (sanitizeClientRoutes now raw) ≠ "" →
        peer.routesHash ≠ some (hashFn (sanitizeClientRoutes now raw)) →
        s.host = some h → h.socket = .openS →
        (handleClientRoutes s "client" pid now raw hashFn).2 =
          [(Dest.toPeer h.participantId,
            OutFrame.sessionPeerRoutes peer.participantId
              (sanitizeClientRoutes now raw))]) ∧
    (∀ (s : Session) (pid : String) (now : ℤ)
       (raw : Option (List (Option RawRoute)))
       (hashFn : List Route → String) (peer h : Peer),
        findPeer s "client" pid = some peer →
        sanitizeClientRoutes now raw = [] →
        s.host = some h → h.socket = .openS →
        (handleClientRoutes s "client" pid now raw hashFn).2 =
          [(Dest.toPeer h.participantId,
            OutFrame.sessionPeerRoutes peer.participantId [])]) := by
  refine ⟨?_, ?_, ?_⟩
  · intro s pid now₁ now₂ raw₁ raw₂ hashFn peer hfp heq hne hh
    have hpos : 0 < (sanitizeClientRoutes now₁ raw₁).length :=
      List.length_pos.mpr hne
    by_cases hdup : peer.routesHash = some (hashFn (sanitizeClientRoutes now₁ raw₁))
    · have h1 : handleClientRoutes s "client" pid now₁ raw₁ hashFn = (s, []) := by
        simp [handleClientRoutes, hfp, hpos, hdup, hh]
      rw [h1]
      simp only []
      have h2 : handleClientRoutes s "client" pid now₂ raw₂ hashFn = (s, []) := by
        simp [handleClientRoutes, hfp, ← heq, hpos, hdup, hh]
      exact h2
    · have h1 : handleClientRoutes s "client" pid now₁ raw₁ hashFn =
          ({ setPeer s "client"
               { peer with
                 routes := some (sanitizeClientRoutes now₁ raw₁)
                 routesHash := some (hashFn (sanitizeClientRoutes now₁ raw₁))
                 lastRoutesAt := now₁ }
             with lastActivity := now₁ },
           sendToHost
             { setPeer s "client"
                 { peer with
                   routes := some (sanitizeClientRoutes now₁ raw₁)
                   routesHash := some (hashFn (sanitizeClientRoutes now₁ raw₁))
                   lastRoutesAt := now₁ }
               with lastActivity := now₁ }
             (.sessionPeerRoutes peer.participantId
               (sanitizeClientRoutes now₁ raw₁))) := by
        simp [handleClientRoutes, hfp, hpos, hdup, hh]
      have hfp2 : findPeer
          (handleClientRoutes s "client" pid now₁ raw₁ hashFn).1 "client" pid =
          some { peer with
                 routes := some (sanitizeClientRoutes now₁ raw₁)
                 routesHash := some (hashFn (sanitizeClientRoutes now₁ raw₁))
                 lastRoutesAt := now₁ } := by
        rw [h1]
        rw [findPeer_lastActivity]
        exact findPeer_setPeer s "client" pid peer _ hfp rfl
      generalize hgen : (handleClientRoutes s "client" pid now₁ raw₁ hashFn).1 = s₁
      rw [hgen] at hfp2
      simp [handleClientRoutes, hfp2, ← heq, hpos, hh]
  · intro s pid now raw hashFn peer h hfp hne hh hdup hhost hsock
    have hpos : 0 < (sanitizeClientRoutes now raw).length :=
      List.length_pos.mpr hne
    simp [handleClientRoutes, hfp, hpos, hdup, hh, sendToHost, setPeer_host, hhost, hsock]
  · intro s pid now raw hashFn peer h hfp hempty hhost hsock
    simp [handleClientRoutes, hfp, hempty, sendToHost, setPeer_host, hhost, hsock]

/-- Witness for C6 (amended): at a concrete session a non-empty payload
submitted twice is deduplicated on the second call, and an empty
payload relays an empty peer-routes frame. -/
theorem c6_client_routes_witness :
    handleClientRoutes
        (handleClientRoutes sessionEx "client" "CL-AAA-BB" 5
          (some [some rawRouteEx]) (fun _ => "H")).1
        "client" "CL-AAA-BB" 6 (some [some rawRouteEx]) (fun _ => "H") =
      ((handleClientRoutes sessionEx "client" "CL-AAA-BB" 5
          (some [some rawRouteEx]) (fun _ => "H")).1, []) ∧
    (handleClientRoutes sessionEx "client" "CL-AAA-BB" 7 (some [])
        (fun _ => "H")).2 =
      [(Dest.toPeer "HQ-AAA", OutFrame.sessionPeerRoutes "CL-AAA-BB" [])] :=
  ⟨c6_client_routes.1 sessionEx "CL-AAA-BB" 5 6 (some [some rawRouteEx])
      (some [some rawRouteEx]) (fun _ => "H") clientPeerEx (by decide) rfl
      (by decide) (by decide),
   c6_client_routes.2.2 sessionEx "CL-AAA-BB" 7 (some []) (fun _ => "H")
      clientPeerEx hostPeerEx (by decide) (by decide) rfl (by decide)⟩

/-- C7 counterexample: host:shutdown on a transport that is not bound
to any session produces NO frame at all — unlike every other handler,
it returns before the not-joined error is sent, so the claimed single
session:error frame does not exist. -/
theorem c7_counterexample :
    handleHostShutdown (fun _ => none) none = [] ∧
    (handleHostShutdown (fun _ => none) none).length ≠ 1 := by
  exact ⟨rfl, by decide⟩

/-- C7 (amended): host:shutdown on a transport that is not bound to a
live session is silently ignored — no frame (in particular no
session:error) is emitted and nothing changes; the not-host error and
the termination run only happen on bound transports. -/
theorem c7_shutdown_unbound :
    (∀ (lookup : String → Option Session),
        handleHostShutdown lookup none = []) ∧
    (∀ (lookup : String → Option Session) (meta : Option Meta),
        ensureSession lookup meta = none →
        handleHostShutdown lookup meta = []) := by
  constructor
  · intro lookup
    rfl
  · intro lookup meta hnone
    simp [handleHostShutdown, hnone]

/-- Witness for C7 (amended): the empty registry and a stale meta. -/
theorem c7_shutdown_unbound_witness :
    handleHostShutdown (fun _ => none)
      (some { role := "host", sessionId := "ABC234"
              participantId := "HQ-AAA" }) = [] :=
  c7_shutdown_unbound.2 (fun _ => none)
    (some { role := "host", sessionId := "ABC234"
            participantId := "HQ-AAA" }) rfl

/-- C9 counterexample: at a concrete session the first step of
terminateSession is the registry removal, and only then come the
session:ended frames and the closes — the claimed order (frames first,
removal last) is refuted by the computed trace. -/
theorem c9_counterexample :
    terminateSession sessionEx "host-ended" =
      [Event.evDelete "ABC234",
       Event.evFrame (Dest.toPeer "HQ-AAA") (.sessionEnded "host-ended"),
       Event.evFrame (Dest.toPeer "CL-AAA-BB") (.sessionEnded "host-ended"),
       Event.evClose "CL-AAA-BB" 1012 "host-ended",
       Event.evClose "HQ-AAA" 1001 "host-ended",
       Event.evClearClients] ∧
    (terminateSession sessionEx "host-ended").head? =
      some (Event.evDelete "ABC234") ∧
    (terminateSession sessionEx "host-ended").head? ≠
      some (Event.evFrame (Dest.toPeer "HQ-AAA")
        (.sessionEnded "host-ended")) := by
  refine ⟨by decide, by decide, by decide⟩

/-- C9 (amended): session termination removes the session from the
registry FIRST, then emits session:ended to the host and every open
client, then closes each client transport with code 1012 and finally
the host transport with code 1001, each close carrying the reason. -/
theorem c9_termination_order :
    ∀ (s : Session) (reason : String) (h : Peer),
      s.host = some h → h.socket = .openS →
      terminateSession s reason =
        Event.evDelete s.id ::
        (Event.evFrame (Dest.toPeer h.participantId) (.sessionEnded reason) ::
          (s.clients.filter (fun c => c.socket = .openS)).map
            (fun c => Event.evFrame (Dest.toPeer c.participantId)
              (.sessionEnded reason))) ++
        (s.clients.map
          (fun c => Event.evClose c.participantId 1012 reason) ++
         [Event.evClose h.participantId 1001 reason, Event.evClearClients]) := by
  intro s reason h hhost hsock
  have hfil : sendToClients s (.sessionEnded reason) =
      (s.clients.filter (fun c => c.socket = .openS)).map
        (fun c => (Dest.toPeer c.participantId,
          OutFrame.sessionEnded reason)) := by
    simp only [sendToClients]
    induction s.clients with
    | nil => rfl
    | cons hd tl ih =>
      by_cases hc : hd.socket = Sock.openS <;>
        simp [List.filterMap_cons, List.filter_cons, hc, ih]
  simp [terminateSession, broadcast, sendToHost, hhost, hsock, hfil,
    Function.comp]

/-- Witness for C9 (amended) at the concrete session. -/
theorem c9_termination_order_witness :
    terminateSession sessionEx "host-ended" =
      Event.evDelete sessionEx.id ::
      (Event.evFrame (Dest.toPeer hostPeerEx.participantId)
          (.sessionEnded "host-ended") ::
        (sessionEx.clients.filter (fun c => c.socket = .openS)).map
          (fun c => Event.evFrame (Dest.toPeer c.participantId)
            (.sessionEnded "host-ended"))) ++
      (sessionEx.clients.map
        (fun c => Event.evClose c.participantId 1012 "host-ended") ++
       [Event.evClose hostPeerEx.participantId 1001 "host-ended",
        Event.evClearClients]) :=
  c9_termination_order sessionEx "host-ended" hostPeerEx rfl (by decide)

/-- Replacing values at a key leaves the key list unchanged. -/
lemma map_fst_replace (l : List (ℤ × Bucket)) (k : ℤ) (u : Bucket → Bucket) :
    (l.map fun p => if p.1 = k then (p.1, u p.2) else p).map Prod.fst =
      l.map Prod.fst := by
  induction l with
  | nil => rfl
  | cons hd tl ih =>
    by_cases h : hd.1 = k <;> simp [h, ih]

/-- The key list after bumpBucket: unchanged when the key was present,
the key appended otherwise. -/
lemma bumpBucket_fst (l : List (ℤ × Bucket)) (k : ℤ) (u : Bucket → Bucket) :
    (bumpBucket l k u).map Prod.fst =
      if l.any (fun p => p.1 = k) then l.map Prod.fst
      else l.map Prod.fst ++ [k] := by
  unfold bumpBucket
  by_cases hany : l.any (fun p => p.1 = k)
  · rw [if_pos hany, if_pos hany, map_fst_replace]
  · rw [if_neg hany, if_neg hany]
    simp

/-- bumpBucket preserves distinctness of the keys. -/
lemma bumpBucket_nodup (l : List (ℤ × Bucket)) (k : ℤ) (u : Bucket → Bucket)
    (h : (l.map Prod.fst).Nodup) :
    ((bumpBucket l k u).map Prod.fst).Nodup := by
  rw [bumpBucket_fst]
  by_cases hany : l.any (fun p => p.1 = k)
  · rw [if_pos hany]; exact h
  · rw [if_neg hany]
    have hk : k ∉ l.map Prod.fst := by
      intro hmem
      obtain ⟨p, hp, hpk⟩ := List.mem_map.mp hmem
      exact hany (List.any_eq_true.mpr ⟨p, hp, by simpa using hpk⟩)
    simp [List.nodup_append, h, hk]

/-- Every entry of bumpBucket carries an old key or the bumped key. -/
lemma bumpBucket_mem (l : List (ℤ × Bucket)) (k : ℤ) (u : Bucket → Bucket)
    (p : ℤ × Bucket) (hp : p ∈ bumpBucket l k u) :
    p.1 ∈ l.map Prod.fst ∨ p.1 = k := by
  have hm : p.1 ∈ (bumpBucket l k u).map Prod.fst :=
    List.mem_map_of_mem _ hp
  rw [bumpBucket_fst] at hm
  by_cases hany : l.any (fun p => p.1 = k)
  · rw [if_pos hany] at hm; exact Or.inl hm
  · rw [if_neg hany] at hm
    rcases List.mem_append.mp hm with h | h
    · exact Or.inl h
    · simp at h; exact Or.inr h

/-- A list of pairs with distinct keys all lying in an integer interval
is no longer than the interval. -/
lemma length_le_of_keys_in_Icc (l : List (ℤ × Bucket)) (a b : ℤ)
    (hab : 0 ≤ b + 1 - a)
    (hnd : (l.map Prod.fst).Nodup)
    (hmem : ∀ p ∈ l, p.1 ∈ Finset.Icc a b) :
    (l.length : ℤ) ≤ b + 1 - a := by
  have h1 : (l.map Prod.fst).length = l.length := List.length_map _ _
  have h2 : (l.map Prod.fst).toFinset ⊆ Finset.Icc a b := by
    intro x hx
    obtain ⟨p, hp, hpx⟩ := List.mem_map.mp (List.mem_toFinset.mp hx)
    exact hpx ▸ hmem p hp
  have h3 : (l.map Prod.fst).toFinset.card = (l.map Prod.fst).length :=
    List.toFinset_card_of_nodup hnd
  have h4 := Finset.card_le_card h2
  rw [h3, Int.card_Icc, h1] at h4
  omega

/-- After bumping the bucket for the current second K and pruning keys
below K − W, the keys are distinct and lie in [K − W, K], so at most
W + 1 buckets remain. -/
lemma bumpFilter_bound (l : List (ℤ × Bucket)) (K W : ℤ) (u : Bucket → Bucket)
    (hW : 0 ≤ W)
    (hbound : ∀ p ∈ l, p.1 ≤ K) (hnd : (l.map Prod.fst).Nodup) :
    ((((bumpBucket l K u).filter fun p => ¬ p.1 < K - W)).length : ℤ) ≤ W + 1 ∧
    ((((bumpBucket l K u).filter fun p => ¬ p.1 < K - W)).map Prod.fst).Nodup := by
  have hnd2 := bumpBucket_nodup l K u hnd
  have hsub : ((bumpBucket l K u).filter fun p => ¬ p.1 < K - W).Sublist
      (bumpBucket l K u) := List.filter_sublist _
  have hndf : (((bumpBucket l K u).filter
      fun p => ¬ p.1 < K - W).map Prod.fst).Nodup :=
    hnd2.sublist (hsub.map Prod.fst)
  refine ⟨?_, hndf⟩
  have hmem : ∀ p ∈ (bumpBucket l K u).filter fun p => ¬ p.1 < K - W,
      p.1 ∈ Finset.Icc (K - W) K := by
    intro p hp
    obtain ⟨hpb, hpf⟩ := List.mem_filter.mp hp
    simp only [decide_eq_true_eq] at hpf
    have hup : p.1 ≤ K := by
      rcases bumpBucket_mem l K u p hpb with h | h
      · obtain ⟨pq, hpq, hpe⟩ := List.mem_map.mp h
        exact hpe ▸ hbound pq hpq
      · omega
    exact Finset.mem_Icc.mpr ⟨by omega, hup⟩
  have hlen := length_le_of_keys_in_Icc _ (K - W) K (by omega) hndf hmem
  omega

/-- The buckets component of a recordTraffic call with a positive
finite byte count. -/
lemma recordTraffic_buckets (W : ℤ) (t : TrafficStats) (d : String)
    (q : ℚ) (nowMs : ℤ) (hq : 0 < q) :
    (recordTraffic W t d (.finite q) nowMs).buckets =
      (bumpBucket t.buckets (Int.fdiv nowMs 1000)
        (fun b => if d = "in" then { b with bucketIn := b.bucketIn + q }
          else if d = "out" then { b with bucketOut := b.bucketOut + q }
          else b)).filter
        (fun p => ¬ p.1 < Int.fdiv nowMs 1000 - W) := by
  have hql : ¬ (q ≤ 0) := not_le.mpr hq
  have ht1 : (if d = "in" then { t with bytesIn := t.bytesIn + q }
      else if d = "out" then { t with bytesOut := t.bytesOut + q }
      else t).buckets = t.buckets := by
    split
    · rfl
    · split <;> rfl
  simp only [recordTraffic, if_neg hql, ht1]

/-- C8 counterexample input: one recorded byte per second for the 61
seconds 0..60 (a monotone clock), against the configuration floor
W = 60. -/
def trafficCalls61 : List (String × JNum × ℤ) :=
  (List.range 61).map fun i => ("in", JNum.finite 1, (i : ℤ) * 1000)

set_option maxRecDepth 40000 in
/-- C8 counterexample: with MAX_TRAFFIC_WINDOW_SECONDS = 60 (the
configuration floor), recording one byte per second for 61 consecutive
seconds leaves 61 buckets in the map — one more than the claimed bound
of at most W entries (the window keeps keys in [now-W, now], which is
W+1 distinct seconds). -/
theorem c8_counterexample :
    (runTraffic 60 { bytesIn := 0, bytesOut := 0, buckets := [] }
        trafficCalls61).buckets.length = 61 ∧
    ¬ ((61 : ℤ) ≤ 60) := by
  refine ⟨by decide, by decide⟩

/-- C8 (amended): after every recording with a positive finite byte
count, every bucket whose second key is older than now − W has been
evicted; consequently (with distinct keys and a monotone clock) the
map holds at most W + 1 buckets, one per second of the inclusive window
[now − W, now]. -/
theorem c8_traffic_window :
    (∀ (W : ℤ) (t : TrafficStats) (d : String) (q : ℚ) (nowMs : ℤ),
        0 < q →
        ∀ p ∈ (recordTraffic W t d (.finite q) nowMs).buckets,
          Int.fdiv nowMs 1000 - W ≤ p.1) ∧
    (∀ (W : ℤ) (t : TrafficStats) (d : String) (q : ℚ) (nowMs : ℤ),
        0 ≤ W → 0 < q →
        (∀ p ∈ t.buckets, p.1 ≤ Int.fdiv nowMs 1000) →
        (t.buckets.map Prod.fst).Nodup →
        ((recordTraffic W t d (.finite q) nowMs).buckets.length : ℤ) ≤ W + 1 ∧
        ((recordTraffic W t d (.finite q) nowMs).buckets.map Prod.fst).Nodup) := by
  constructor
  · intro W t d q nowMs hq p hp
    rw [recordTraffic_buckets W t d q nowMs hq] at hp
    have h2 := (List.mem_filter.mp hp).2
    simp only [decide_eq_true_eq] at h2
    omega
  · intro W t d q nowMs hW hq hbound hnd
    rw [recordTraffic_buckets W t d q nowMs hq]
    exact bumpFilter_bound t.buckets (Int.fdiv nowMs 1000) W _ hW hbound hnd

/-- Witness for C8 (amended): recording one byte into the empty meter
at time 0 with the default window 900. -/
theorem c8_traffic_window_witness :
    (∀ p ∈ (recordTraffic 900 { bytesIn := 0, bytesOut := 0, buckets := [] }
        "in" (.finite 1) 0).buckets, Int.fdiv 0 1000 - 900 ≤ p.1) ∧
    ((recordTraffic 900 { bytesIn := 0, bytesOut := 0, buckets := [] }
        "in" (.finite 1) 0).buckets.length : ℤ) ≤ 900 + 1 ∧
    ((recordTraffic 900 { bytesIn := 0, bytesOut := 0, buckets := [] }
        "in" (.finite 1) 0).buckets.map Prod.fst).Nodup :=
  ⟨c8_traffic_window.1 900 { bytesIn := 0, bytesOut := 0, buckets := [] }
      "in" 1 0 (by decide),
   (c8_traffic_window.2 900 { bytesIn := 0, bytesOut := 0, buckets := [] }
      "in" 1 0 (by decide) (by decide) (by decide) (by decide)).1,
   (c8_traffic_window.2 900 { bytesIn := 0, bytesOut := 0, buckets := [] }
      "in" 1 0 (by decide) (by decide) (by decide) (by decide)).2⟩

end CadNav
